import Mathlib

/-!
# Verification of the phantom-image compositor (`create_image.py`)

A shallow embedding of the program's data model and operations.

Python float arithmetic is modelled over `ℚ`: every quantity the per-pixel
algorithm manipulates (`b1`, `b2`, `a`, the interpolation fraction at the
inputs the theorems evaluate) is an exact binary fraction well inside double
precision, so the rational model agrees with the float execution on
everything stated here.  Python's `round` (used via `int(round(...))`) is
round-half-to-even, embedded as `roundHalfEven`.
-/

/-- Round-half-to-even on rationals: the rounding policy of Python's built-in
`round`, used by `interpolate`, the alpha computation and the centering
offsets.  Ties (fractional part exactly 1/2) go to the even neighbour. -/
def roundHalfEven (q : ℚ) : ℤ :=
  if q - Rat.floor q < 1/2 then Rat.floor q
  else if 1/2 < q - Rat.floor q then Rat.floor q + 1
  else if Rat.floor q % 2 = 0 then Rat.floor q else Rat.floor q + 1

/-- A background color: an (R, G, B) triple of Python ints. -/
abbrev Color := ℤ × ℤ × ℤ

/-- One RGBA output pixel (R, G, B, A), Python ints. -/
abbrev RGBAPix := ℤ × ℤ × ℤ × ℤ

/-- Function `interpolate(x, bc1, bc2)` from `create_image.py` lines 17-27:
per-channel `int(round(c1 + (c2 - c1) * x))`. -/
def interpolate (x : ℚ) (bc1 bc2 : Color) : Color :=
  (roundHalfEven ((bc1.1 : ℚ) + ((bc2.1 : ℚ) - (bc1.1 : ℚ)) * x),
   roundHalfEven ((bc1.2.1 : ℚ) + ((bc2.2.1 : ℚ) - (bc1.2.1 : ℚ)) * x),
   roundHalfEven ((bc1.2.2 : ℚ) + ((bc2.2.2 : ℚ) - (bc1.2.2 : ℚ)) * x))

/-- Clamp `max(0, min(255, n))`, the alpha clamp of line 146. -/
def clamp255 (n : ℤ) : ℤ := max 0 (min 255 n)

/-- Local `b1 = float(r_val) / 2.0` of line 131. -/
def b1val (r_val : ℕ) : ℚ := (r_val : ℚ) / 2

/-- Local `b2 = float(g_val) / 2.0 + 127.5` of line 132. -/
def b2val (g_val : ℕ) : ℚ := (g_val : ℚ) / 2 + 127.5

/-- Local `a = 255.0 - b2 + b1` of line 134. -/
def aval (r_val g_val : ℕ) : ℚ := 255 - b2val g_val + b1val r_val

/-- Local `b` of lines 136-139: `0.0`, overwritten with `b1 / a` when `a > 0`. -/
def bval (r_val g_val : ℕ) : ℚ :=
  if aval r_val g_val > 0 then b1val r_val / aval r_val g_val else 0

/-- The body of the pixel scan, lines 131-149: the RGBA pixel written at a
location whose merged channels hold `r_val` (image1 layer) and `g_val`
(image2 layer), for background colors `bc1`, `bc2`. -/
def compositePixel (r_val g_val : ℕ) (bc1 bc2 : Color) : RGBAPix :=
  let rgb := interpolate (bval r_val g_val) bc1 bc2
  (rgb.1, rgb.2.1, rgb.2.2, clamp255 (roundHalfEven (aval r_val g_val)))

/-- Modelled from the spec (§4.3), for the refinement claim: `lerp(c1, c2, t)`
per channel `round(c1 + (c2 - c1) * t)`, each channel independently, with the
program's documented consistent rounding policy (round-half-to-even). -/
def lerp (c1 c2 : Color) (t : ℚ) : Color :=
  (roundHalfEven ((c1.1 : ℚ) + ((c2.1 : ℚ) - (c1.1 : ℚ)) * t),
   roundHalfEven ((c1.2.1 : ℚ) + ((c2.2.1 : ℚ) - (c1.2.1 : ℚ)) * t),
   roundHalfEven ((c1.2.2 : ℚ) + ((c2.2.2 : ℚ) - (c1.2.2 : ℚ)) * t))

/-- Modelled from the spec (§4.3), for the refinement claim: the per-pixel
algorithm exactly as written there: `b1 = r_val/2`, `b2 = g_val/2 + 127.5`,
`a = 255 - b2 + b1`, `t = 0 if a <= 0 else b1/a`, `color = lerp(bc1, bc2, t)`,
`alpha = clamp(round(a), 0, 255)`. -/
def specPixel (r_val g_val : ℕ) (bc1 bc2 : Color) : RGBAPix :=
  let b1 : ℚ := (r_val : ℚ) / 2
  let b2 : ℚ := (g_val : ℚ) / 2 + 127.5
  let a : ℚ := 255 - b2 + b1
  let t : ℚ := if a ≤ 0 then 0 else b1 / a
  let c := lerp bc1 bc2 t
  (c.1, c.2.1, c.2.2, clamp255 (roundHalfEven a))

/-- Division that reports a division by zero instead of performing it:
used to show the guard `if a > 0` protects the division on line 139. -/
def safeDiv (x y : ℚ) : Option ℚ := if y = 0 then none else some (x / y)

/-- Lines 136-139 with the division checked: `none` would mean the scan body
attempted a division by zero. -/
def bvalChecked (r_val g_val : ℕ) : Option ℚ :=
  if aval r_val g_val > 0 then safeDiv (b1val r_val) (aval r_val g_val)
  else some 0

/-- The scan body with every division checked. -/
def compositePixelChecked (r_val g_val : ℕ) (bc1 bc2 : Color) : Option RGBAPix :=
  (bvalChecked r_val g_val).map fun b =>
    let rgb := interpolate b bc1 bc2
    (rgb.1, rgb.2.1, rgb.2.2, clamp255 (roundHalfEven (aval r_val g_val)))

/-! ## Grayscale layers, canvases, compositing, border (lines 84-116, 154-163) -/

/-- A single-channel 8-bit image (PIL mode `L`): width, height and an
intensity per coordinate. -/
structure GrayImage where
  width : ℕ
  height : ℕ
  pix : ℕ → ℕ → ℕ

/-- Maskless `base.paste(img, (ox, oy))` for single-channel images: inside the
pasted rectangle the pixel comes from `img`, elsewhere from `base`. -/
def pasteGray (base img : GrayImage) (ox oy : ℤ) : GrayImage where
  width := base.width
  height := base.height
  pix := fun x y =>
    if ox ≤ (x : ℤ) ∧ (x : ℤ) < ox + img.width ∧ oy ≤ (y : ℤ) ∧ (y : ℤ) < oy + img.height
    then img.pix ((x : ℤ) - ox).toNat ((y : ℤ) - oy).toNat
    else base.pix x y

/-- Centering offset `int(round((result_dim - img_dim) / 2))` of lines 94-95
(Python `round` is round-half-to-even). -/
def centerOffset (canvasDim imgDim : ℕ) : ℤ :=
  roundHalfEven (((canvasDim : ℚ) - (imgDim : ℚ)) / 2)

/-- Lines 85-97: `base1`, a black canvas of the componentwise-max dimensions
with `img1` pasted centered onto it. -/
def buildCanvas1 (img1 img2 : GrayImage) : GrayImage :=
  let result_width := max img1.width img2.width
  let result_height := max img1.height img2.height
  pasteGray ⟨result_width, result_height, fun _ _ => 0⟩ img1
    (centerOffset result_width img1.width) (centerOffset result_height img1.height)

/-- Lines 85-98: `base2`, a white canvas of the componentwise-max dimensions
with `img2` pasted centered onto it. -/
def buildCanvas2 (img1 img2 : GrayImage) : GrayImage :=
  let result_width := max img1.width img2.width
  let result_height := max img1.height img2.height
  pasteGray ⟨result_width, result_height, fun _ _ => 255⟩ img2
    (centerOffset result_width img2.width) (centerOffset result_height img2.height)

/-- An RGBA image: width, height and an RGBA pixel per coordinate. -/
structure RGBAImage where
  width : ℕ
  height : ℕ
  pix : ℕ → ℕ → RGBAPix

/-- Maskless `base.paste(img, (ox, oy))` for RGBA images. -/
def pasteRGBA (base img : RGBAImage) (ox oy : ℤ) : RGBAImage where
  width := base.width
  height := base.height
  pix := fun x y =>
    if ox ≤ (x : ℤ) ∧ (x : ℤ) < ox + img.width ∧ oy ≤ (y : ℤ) ∧ (y : ℤ) < oy + img.height
    then img.pix ((x : ℤ) - ox).toNat ((y : ℤ) - oy).toNat
    else base.pix x y

/-- Lines 108-150: `result_image`, the RGBA image whose pixel at `(x, y)` is
the scan body applied to the co-located intensities of the two layers
(`merged_rg` holds layer1 in R and layer2 in G; both layers share the canvas
dimensions). -/
def compositeLayers (layer1 layer2 : GrayImage) (bc1 bc2 : Color) : RGBAImage :=
  ⟨layer1.width, layer1.height,
   fun x y => compositePixel (layer1.pix x y) (layer2.pix x y) bc1 bc2⟩

/-- Lines 154-163: `bordered_image`, a fully transparent `(0,0,0,0)` canvas of
dimensions `+2` in each axis with the result pasted at offset `(1, 1)`. -/
def addBorder (img : RGBAImage) : RGBAImage :=
  pasteRGBA ⟨img.width + 2, img.height + 2, fun _ _ => (0, 0, 0, 0)⟩ img 1 1

/-! ## The transparency flatten of `load_and_prepare_image` (lines 43-53)

The loader pastes the opened image onto a white RGB background, passing the
image itself as the paste mask; if PIL rejects the mask with `ValueError` it
pastes without a mask.  PIL accepts exactly the modes `1`, `L`, `LA` and
`RGBA` as masks.  The model below covers the alpha-less source modes the C4
claim quantifies over; a single channel stands for the (equal) R, G and B
channels of the white background. -/

/-- Source-image color modes without an alpha channel. -/
inductive PILMode
  | rgb
  | grayL
  | palette
  | bilevel
deriving DecidableEq

/-- Modes PIL accepts as a paste mask (among the alpha-less ones): `L` and
`1`.  Mode `RGB` and mode `P` masks raise `ValueError`. -/
def maskAllowed : PILMode → Bool
  | .grayL => true
  | .bilevel => true
  | _ => false

/-- Pillow's `MULDIV255` fixed-point division by 255 used by mask blending:
`(tmp = x*y + 128; ((tmp >> 8) + tmp) >> 8)`. -/
def muldiv255 (x y : ℕ) : ℕ := ((x * y + 128) >>> 8 + (x * y + 128)) >>> 8

/-- Pillow's `BLEND` for an `L`-mode mask value `m`:
`MULDIV255(bg, 255 - m) + MULDIV255(src, m)`. -/
def blendChannel (bgv srcv m : ℕ) : ℕ := muldiv255 bgv (255 - m) + muldiv255 srcv m

/-- A source image as opened by the loader: a color mode plus one channel of
pixel data (the single channel of `L`/`1` images, or the replicated gray
value of the inputs considered here). -/
structure SrcImage where
  mode : PILMode
  width : ℕ
  height : ℕ
  pix : ℕ → ℕ → ℕ

/-- One pixel of the flatten step for an alpha-less source: mode `L` blends
the pixel with the white background using the pixel itself as mask weight;
mode `1` keeps the background where the pixel is 0 and the pixel elsewhere;
modes `RGB` and `P` raise `ValueError` on the masked paste, so the direct
paste leaves the pixel unchanged. -/
def flattenPix (mode : PILMode) (bgv v : ℕ) : ℕ :=
  match mode with
  | .grayL => blendChannel bgv v v
  | .bilevel => if v = 0 then bgv else v
  | _ => v

/-- Lines 43-53: the white-background flatten applied to an alpha-less source
image (`bg.paste(img, (0, 0), img)`, falling back to `bg.paste(img, (0, 0))`
on `ValueError`).  The result is the RGB background after the paste. -/
def flattenOntoWhite (img : SrcImage) : SrcImage :=
  ⟨.rgb, img.width, img.height, fun x y => flattenPix img.mode 255 (img.pix x y)⟩

/-! ## Color parsing and the program run (lines 5-15, 65-172) -/

/-- Value of one hexadecimal digit character. -/
def hexVal (c : Char) : Option ℕ :=
  if '0' ≤ c ∧ c ≤ '9' then some (c.toNat - '0'.toNat)
  else if 'a' ≤ c ∧ c ≤ 'f' then some (c.toNat - 'a'.toNat + 10)
  else if 'A' ≤ c ∧ c ≤ 'F' then some (c.toNat - 'A'.toNat + 10)
  else none

/-- Model of `PIL.ImageColor.getrgb` on the hex forms the program documents
(`#RGB` and `#RRGGBB`, case-insensitive): `#RGB` expands each digit `d` to
`17 * d`.  Strings of neither form (such as `"notacolor"`, which is also not
a recognised color name) yield `none`, modelling `ValueError`. -/
def getrgb (s : String) : Option Color :=
  match s.toList with
  | '#' :: rest =>
    match rest.mapM hexVal with
    | some [r, g, b] =>
        some ((17 * r : ℕ), (17 * g : ℕ), (17 * b : ℕ))
    | some [rh, rl, gh, gl, bh, bl] =>
        some ((16 * rh + rl : ℕ), (16 * gh + gl : ℕ), (16 * bh + bl : ℕ))
    | _ => none
  | _ => none

/-- Function `hex_to_rgb` of lines 5-15: parse via `ImageColor.getrgb`;
`none` models the `except ValueError` branch, which prints a diagnostic and
calls `sys.exit(1)`. -/
def hex_to_rgb (s : String) : Option Color := getrgb s

/-- Observable outcome of one program run. -/
structure RunResult where
  exitCode : ℕ
  imagesLoaded : ℕ
  saveErrorReported : Bool
  output : Option RGBAImage

/-- Control flow of `composite_images` (lines 65-172) followed by the end of
`main`: the two `load_and_prepare_image` calls run first (`none` models a
load failure, which prints and calls `sys.exit(1)`); only then are the two
color strings parsed (failure exits with code 1, after both images were
loaded and prepared); the composite and border are computed; saving either
succeeds (exit 0) or raises, in which case the `except` branch prints
"Error saving image", `composite_images` returns and the process still
exits with code 0.  `imagesLoaded` counts the images fully loaded and
prepared before the run ends. -/
def composite_images (img1 img2 : Option GrayImage) (color1 color2 : String)
    (saveOk : Bool) : RunResult :=
  match img1 with
  | none => ⟨1, 0, false, none⟩
  | some i1 =>
    match img2 with
    | none => ⟨1, 1, false, none⟩
    | some i2 =>
      match hex_to_rgb color1 with
      | none => ⟨1, 2, false, none⟩
      | some bc1 =>
        match hex_to_rgb color2 with
        | none => ⟨1, 2, false, none⟩
        | some bc2 =>
          let result_image :=
            compositeLayers (buildCanvas1 i1 i2) (buildCanvas2 i1 i2) bc1 bc2
          let bordered_image := addBorder result_image
          if saveOk then ⟨0, 2, false, some bordered_image⟩
          else ⟨0, 2, true, none⟩

/-! ## Concrete fixtures used by witnesses and counterexamples -/

/-- A 2 by 1 constant gray image of intensity 10. -/
def gimgA : GrayImage := ⟨2, 1, fun _ _ => 10⟩

/-- A 1 by 3 constant gray image of intensity 20. -/
def gimgB : GrayImage := ⟨1, 3, fun _ _ => 20⟩

/-- A 1 by 1 black gray image. -/
def unitGray : GrayImage := ⟨1, 1, fun _ _ => 0⟩

/-- A 1 by 1 RGBA image with a distinctive pixel. -/
def rimgT : RGBAImage := ⟨1, 1, fun _ _ => (1, 2, 3, 4)⟩

/-- A 1 by 1 mode-`L` source image with pixel value 0, no alpha channel. -/
def srcL0 : SrcImage := ⟨.grayL, 1, 1, fun _ _ => 0⟩

/-- A 1 by 1 mode-`RGB` source image with channel value 0, no alpha channel. -/
def srcRGB0 : SrcImage := ⟨.rgb, 1, 1, fun _ _ => 0⟩

/-- A 2 by 1 gray layer whose intensity varies with the column. -/
def layerV : GrayImage := ⟨2, 1, fun x _ => 7 + x⟩

/-- A 2 by 1 constant gray layer of intensity 7. -/
def layerC : GrayImage := ⟨2, 1, fun _ _ => 7⟩

/-- A 2 by 1 constant gray layer of intensity 30. -/
def layerD : GrayImage := ⟨2, 1, fun _ _ => 30⟩

/-- Background color black. -/
def colBlack : Color := (0, 0, 0)

/-- Background color white. -/
def colWhite : Color := (255, 255, 255)

/-! ## Basic facts about the rounding policy -/

theorem ratFloor_eq_floor (q : ℚ) : Rat.floor q = ⌊q⌋ := by
  rw [Rat.floor_def', Rat.floor_def]

theorem roundHalfEven_intCast (n : ℤ) : roundHalfEven (n : ℚ) = n := by
  unfold roundHalfEven
  rw [ratFloor_eq_floor, Int.floor_intCast]
  norm_num

theorem roundHalfEven_int_add_half (n : ℤ) :
    roundHalfEven ((n : ℚ) + 1/2) = if n % 2 = 0 then n else n + 1 := by
  have hfl : ⌊(n : ℚ) + 1/2⌋ = n := by
    rw [Int.floor_eq_iff]
    constructor <;> linarith
  unfold roundHalfEven
  rw [ratFloor_eq_floor, hfl]
  have hr : (n : ℚ) + 1/2 - n = 1/2 := by ring
  rw [hr]
  norm_num

theorem roundHalfEven_nonneg (q : ℚ) (hq : 0 ≤ q) : 0 ≤ roundHalfEven q := by
  have hf : 0 ≤ ⌊q⌋ := Int.floor_nonneg.mpr hq
  unfold roundHalfEven
  rw [ratFloor_eq_floor]
  split_ifs <;> omega

theorem centerOffset_nonneg (c i : ℕ) (h : i ≤ c) : 0 ≤ centerOffset c i := by
  apply roundHalfEven_nonneg
  have : (i : ℚ) ≤ (c : ℚ) := by exact_mod_cast h
  linarith

theorem centerOffset_self (n : ℕ) : centerOffset n n = 0 := by
  unfold centerOffset
  rw [show ((n : ℚ) - (n : ℚ)) / 2 = ((0 : ℤ) : ℚ) by push_cast; ring]
  exact roundHalfEven_intCast 0

theorem interpolate_zero (bc1 bc2 : Color) : interpolate 0 bc1 bc2 = bc1 := by
  unfold interpolate
  rw [Prod.ext_iff, Prod.ext_iff]
  refine ⟨?_, ?_, ?_⟩ <;> simp [roundHalfEven_intCast]

theorem interpolate_one (bc1 bc2 : Color) : interpolate 1 bc1 bc2 = bc2 := by
  unfold interpolate
  rw [Prod.ext_iff, Prod.ext_iff]
  refine ⟨?_, ?_, ?_⟩
  · rw [show (bc1.1 : ℚ) + ((bc2.1 : ℚ) - (bc1.1 : ℚ)) * 1 = ((bc2.1 : ℤ) : ℚ) by
      ring]
    exact roundHalfEven_intCast _
  · rw [show (bc1.2.1 : ℚ) + ((bc2.2.1 : ℚ) - (bc1.2.1 : ℚ)) * 1 = ((bc2.2.1 : ℤ) : ℚ) by
      ring]
    exact roundHalfEven_intCast _
  · rw [show (bc1.2.2 : ℚ) + ((bc2.2.2 : ℚ) - (bc1.2.2 : ℚ)) * 1 = ((bc2.2.2 : ℤ) : ℚ) by
      ring]
    exact roundHalfEven_intCast _

theorem interpolate_same (x : ℚ) (bc : Color) : interpolate x bc bc = bc := by
  unfold interpolate
  rw [Prod.ext_iff, Prod.ext_iff]
  refine ⟨?_, ?_, ?_⟩ <;> simp [roundHalfEven_intCast]

theorem aval_eq (r_val g_val : ℕ) :
    aval r_val g_val = (255 + (r_val : ℚ) - (g_val : ℚ)) / 2 := by
  unfold aval b2val b1val
  ring

/-! ## C1, C2: the per-pixel compositor -/

/-- C1: For every pair of co-located intensities and every pair of
background colors, the scan body of `composite_images` (lines 131-149)
computes exactly the spec's per-pixel algorithm: `b1 = r_val/2`,
`b2 = g_val/2 + 127.5`, `a = 255 - b2 + b1`, `t = 0` if `a ≤ 0` else `b1/a`,
each RGB channel `round(bc1_ch + (bc2_ch - bc1_ch) * t)` independently, and
alpha `round(a)` clamped to `[0, 255]`. -/
theorem compositePixel_eq_specPixel (r_val g_val : ℕ) (bc1 bc2 : Color) :
    compositePixel r_val g_val bc1 bc2 = specPixel r_val g_val bc1 bc2 := by
  simp only [compositePixel, specPixel, bval, aval, b2val, b1val, interpolate, lerp]
  split_ifs <;> first | rfl | (exfalso; linarith)

/-- C2: For all intensities, the scan body performs no division by zero
(the checked variant succeeds and agrees with the unchecked one) and the
alpha it emits lies in `[0, 255]`. -/
theorem compositePixel_safe (r_val g_val : ℕ) (bc1 bc2 : Color) :
    compositePixelChecked r_val g_val bc1 bc2
      = some (compositePixel r_val g_val bc1 bc2) ∧
    0 ≤ (compositePixel r_val g_val bc1 bc2).2.2.2 ∧
    (compositePixel r_val g_val bc1 bc2).2.2.2 ≤ 255 := by
  refine ⟨?_, ?_, ?_⟩
  · unfold compositePixelChecked bvalChecked compositePixel bval safeDiv
    split_ifs with h h0
    · exact absurd h0 (ne_of_gt h)
    · rfl
    · rfl
  · show 0 ≤ clamp255 (roundHalfEven (aval r_val g_val))
    simp only [clamp255]
    omega
  · show clamp255 (roundHalfEven (aval r_val g_val)) ≤ 255
    simp only [clamp255]
    omega

/-! ## C5: the transparent border -/

/-- C5: The bordered image's dimensions equal the composited image's plus 2 in
each axis, every pixel on the outer 1-pixel ring is the fully transparent
`(0, 0, 0, 0)` (alpha 0), and the interior shifted by `(1, 1)` is
pixel-for-pixel identical to the composited image. -/
theorem addBorder_spec (img : RGBAImage) :
    (addBorder img).width = img.width + 2 ∧
    (addBorder img).height = img.height + 2 ∧
    (∀ u v : ℕ, u ≤ img.width + 1 → v ≤ img.height + 1 →
      (u = 0 ∨ u = img.width + 1 ∨ v = 0 ∨ v = img.height + 1) →
      (addBorder img).pix u v = (0, 0, 0, 0)) ∧
    (∀ x y : ℕ, x < img.width → y < img.height →
      (addBorder img).pix (x + 1) (y + 1) = img.pix x y) := by
  refine ⟨rfl, rfl, ?_, ?_⟩
  · intro u v hu hv hring
    simp only [addBorder, pasteRGBA]
    split_ifs with h
    · exfalso; omega
    · rfl
  · intro x y hx hy
    have e1 : (((x + 1 : ℕ) : ℤ) - 1).toNat = x := by omega
    have e2 : (((y + 1 : ℕ) : ℤ) - 1).toNat = y := by omega
    simp only [addBorder, pasteRGBA]
    split_ifs with h
    · rw [e1, e2]
    · exfalso; omega

/-- C5 witness: the border theorem applied to a concrete 1 by 1 image. -/
theorem addBorder_spec_witness :
    (addBorder rimgT).pix 0 0 = (0, 0, 0, 0) ∧
    (addBorder rimgT).pix 1 1 = (1, 2, 3, 4) := by
  have h := addBorder_spec rimgT
  exact ⟨h.2.2.1 0 0 (by decide) (by decide) (Or.inl rfl),
         h.2.2.2 0 0 (by decide) (by decide)⟩

/-! ## C6: the canvas normalizer -/

/-- C6: The two canvases have the componentwise-max dimensions of the two
prepared images; image1 is pasted onto the intensity-0 canvas and image2 onto
the intensity-255 canvas, each at the per-axis offset
`round((canvasDim - imgDim) / 2)` (round-half-to-even, `centerOffset`);
pixels inside a pasted rectangle come from the image and pixels outside it
keep the canvas fill intensity. -/
theorem canvas_spec (img1 img2 : GrayImage) :
    (buildCanvas1 img1 img2).width = max img1.width img2.width ∧
    (buildCanvas1 img1 img2).height = max img1.height img2.height ∧
    (buildCanvas2 img1 img2).width = max img1.width img2.width ∧
    (buildCanvas2 img1 img2).height = max img1.height img2.height ∧
    (∀ x y : ℕ, x < img1.width → y < img1.height →
      (buildCanvas1 img1 img2).pix
        ((centerOffset (max img1.width img2.width) img1.width).toNat + x)
        ((centerOffset (max img1.height img2.height) img1.height).toNat + y)
        = img1.pix x y) ∧
    (∀ x y : ℕ, x < img2.width → y < img2.height →
      (buildCanvas2 img1 img2).pix
        ((centerOffset (max img1.width img2.width) img2.width).toNat + x)
        ((centerOffset (max img1.height img2.height) img2.height).toNat + y)
        = img2.pix x y) ∧
    (∀ u v : ℕ,
      ¬ (centerOffset (max img1.width img2.width) img1.width ≤ (u : ℤ) ∧
         (u : ℤ) < centerOffset (max img1.width img2.width) img1.width + (img1.width : ℤ) ∧
         centerOffset (max img1.height img2.height) img1.height ≤ (v : ℤ) ∧
         (v : ℤ) < centerOffset (max img1.height img2.height) img1.height + (img1.height : ℤ)) →
      (buildCanvas1 img1 img2).pix u v = 0) ∧
    (∀ u v : ℕ,
      ¬ (centerOffset (max img1.width img2.width) img2.width ≤ (u : ℤ) ∧
         (u : ℤ) < centerOffset (max img1.width img2.width) img2.width + (img2.width : ℤ) ∧
         centerOffset (max img1.height img2.height) img2.height ≤ (v : ℤ) ∧
         (v : ℤ) < centerOffset (max img1.height img2.height) img2.height + (img2.height : ℤ)) →
      (buildCanvas2 img1 img2).pix u v = 255) := by
  have h0x1 : 0 ≤ centerOffset (max img1.width img2.width) img1.width :=
    centerOffset_nonneg _ _ (le_max_left _ _)
  have h0y1 : 0 ≤ centerOffset (max img1.height img2.height) img1.height :=
    centerOffset_nonneg _ _ (le_max_left _ _)
  have h0x2 : 0 ≤ centerOffset (max img1.width img2.width) img2.width :=
    centerOffset_nonneg _ _ (le_max_right _ _)
  have h0y2 : 0 ≤ centerOffset (max img1.height img2.height) img2.height :=
    centerOffset_nonneg _ _ (le_max_right _ _)
  refine ⟨rfl, rfl, rfl, rfl, ?_, ?_, ?_, ?_⟩
  · intro x y hx hy
    have e1 : ((((centerOffset (max img1.width img2.width) img1.width).toNat + x : ℕ) : ℤ)
        - centerOffset (max img1.width img2.width) img1.width).toNat = x := by omega
    have e2 : ((((centerOffset (max img1.height img2.height) img1.height).toNat + y : ℕ) : ℤ)
        - centerOffset (max img1.height img2.height) img1.height).toNat = y := by omega
    simp only [buildCanvas1, pasteGray]
    split_ifs with h
    · rw [e1, e2]
    · exfalso; omega
  · intro x y hx hy
    have e1 : ((((centerOffset (max img1.width img2.width) img2.width).toNat + x : ℕ) : ℤ)
        - centerOffset (max img1.width img2.width) img2.width).toNat = x := by omega
    have e2 : ((((centerOffset (max img1.height img2.height) img2.height).toNat + y : ℕ) : ℤ)
        - centerOffset (max img1.height img2.height) img2.height).toNat = y := by omega
    simp only [buildCanvas2, pasteGray]
    split_ifs with h
    · rw [e1, e2]
    · exfalso; omega
  · intro u v h
    simp only [buildCanvas1, pasteGray]
    split_ifs
    rfl
  · intro u v h
    simp only [buildCanvas2, pasteGray]
    split_ifs
    rfl

theorem centerOffset_3_1 : centerOffset 3 1 = 1 := by
  unfold centerOffset
  rw [show (((3 : ℕ) : ℚ) - ((1 : ℕ) : ℚ)) / 2 = ((1 : ℤ) : ℚ) by norm_num]
  exact roundHalfEven_intCast 1

theorem centerOffset_2_1 : centerOffset 2 1 = 0 := by
  unfold centerOffset
  rw [show (((2 : ℕ) : ℚ) - ((1 : ℕ) : ℚ)) / 2 = ((0 : ℤ) : ℚ) + 1/2 by norm_num]
  rw [roundHalfEven_int_add_half]
  norm_num

/-- C6 witness: the canvas theorem applied to a 2 by 1 image and a 1 by 3
image (canvas 2 by 3; offsets (0, 1) for image1 and (0, 0) for image2,
the former exercising the half-to-even rounding of `round((3-1)/2)` and
`round((2-1)/2)`). -/
theorem canvas_spec_witness :
    (buildCanvas1 gimgA gimgB).pix 0 1 = 10 ∧
    (buildCanvas1 gimgA gimgB).pix 0 0 = 0 ∧
    (buildCanvas2 gimgA gimgB).pix 0 2 = 20 ∧
    (buildCanvas2 gimgA gimgB).pix 1 0 = 255 := by
  have h := canvas_spec gimgA gimgB
  have hm1 : max (2 : ℕ) 1 = 2 := rfl
  have hm2 : max (1 : ℕ) 3 = 3 := rfl
  have hcs2 : centerOffset 2 2 = 0 := centerOffset_self 2
  have hcs3 : centerOffset 3 3 = 0 := centerOffset_self 3
  refine ⟨?_, ?_, ?_, ?_⟩
  · have hc := h.2.2.2.2.1 0 0 (by decide) (by decide)
    simpa [gimgA, gimgB, hm1, hm2, hcs2, centerOffset_3_1] using hc
  · refine h.2.2.2.2.2.2.1 0 0 ?_
    simp only [gimgA, gimgB, hm1, hm2, hcs2, centerOffset_3_1]
    omega
  · have hc := h.2.2.2.2.2.1 0 2 (by decide) (by decide)
    simpa [gimgA, gimgB, hm1, hm2, hcs3, centerOffset_2_1] using hc
  · refine h.2.2.2.2.2.2.2 1 0 ?_
    simp only [gimgA, gimgB, hm1, hm2, hcs3, centerOffset_2_1]
    omega

/-! ## C8: per-pixel purity (determinism) -/

/-- C8: Every output pixel of the compositor is a pure function of the two
co-located layer intensities and the two background colors alone: two layer
pairs that agree at a location produce the same output pixel there, whatever
their other pixels are.  The whole pipeline (`composite_images`) is a pure
function of its inputs, so two runs on identical inputs and arguments are
definitionally identical. -/
theorem compositeLayers_pointwise (L1 L2 M1 M2 : GrayImage) (bc1 bc2 : Color)
    (x y : ℕ) (h1 : L1.pix x y = M1.pix x y) (h2 : L2.pix x y = M2.pix x y) :
    (compositeLayers L1 L2 bc1 bc2).pix x y
      = (compositeLayers M1 M2 bc1 bc2).pix x y := by
  simp only [compositeLayers, h1, h2]

/-- C8 witness: two layer pairs that differ away from `(0, 0)` but agree
there produce the same pixel at `(0, 0)`. -/
theorem compositeLayers_pointwise_witness :
    (compositeLayers layerC layerD colBlack colWhite).pix 0 0
      = (compositeLayers layerV layerD colBlack colWhite).pix 0 0 :=
  compositeLayers_pointwise layerC layerD layerV layerD colBlack colWhite 0 0 rfl rfl

/-! ## C9: further inputs with emitted alpha 0 -/

/-- C9: Whenever `255 - g_val + r_val = 1` (with both intensities in range,
so `g_val = r_val + 254`), the pre-clamp alpha is `0.5` and round-half-to-even
sends it to 0, so the pixel is emitted fully transparent; in particular
`(r_val, g_val) = (0, 254)` gives alpha 0 with color `bc1` (t = 0) and
`(r_val, g_val) = (1, 255)` gives alpha 0 with color `bc2` (t = 1), not
`bc1`. -/
theorem alpha_zero_beyond_extreme (r_val g_val : ℕ) (bc1 bc2 : Color)
    (hg : g_val = r_val + 254) (_hle : g_val ≤ 255) :
    (compositePixel r_val g_val bc1 bc2).2.2.2 = 0 ∧
    compositePixel 0 254 bc1 bc2 = (bc1.1, bc1.2.1, bc1.2.2, 0) ∧
    compositePixel 1 255 bc1 bc2 = (bc2.1, bc2.2.1, bc2.2.2, 0) := by
  have ha0 : aval 0 254 = 1/2 := by rw [aval_eq]; norm_num
  have ha1 : aval 1 255 = 1/2 := by rw [aval_eq]; norm_num
  have hr0 : roundHalfEven (1/2 : ℚ) = 0 := by
    rw [show (1/2 : ℚ) = ((0 : ℤ) : ℚ) + 1/2 by norm_num, roundHalfEven_int_add_half]
    norm_num
  refine ⟨?_, ?_, ?_⟩
  · show clamp255 (roundHalfEven (aval r_val g_val)) = 0
    have ha : aval r_val g_val = 1/2 := by
      rw [aval_eq, hg]; push_cast; ring
    rw [ha, hr0]
    rfl
  · have hb : bval 0 254 = 0 := by
      unfold bval
      rw [ha0, if_pos (by norm_num)]
      norm_num [b1val]
    show (let rgb := interpolate (bval 0 254) bc1 bc2
          (rgb.1, rgb.2.1, rgb.2.2, clamp255 (roundHalfEven (aval 0 254))))
        = (bc1.1, bc1.2.1, bc1.2.2, 0)
    rw [hb, interpolate_zero, ha0, hr0]
    rfl
  · have hb : bval 1 255 = 1 := by
      unfold bval
      rw [ha1, if_pos (by norm_num)]
      norm_num [b1val]
    show (let rgb := interpolate (bval 1 255) bc1 bc2
          (rgb.1, rgb.2.1, rgb.2.2, clamp255 (roundHalfEven (aval 1 255))))
        = (bc2.1, bc2.2.1, bc2.2.2, 0)
    rw [hb, interpolate_one, ha1, hr0]
    rfl

/-- C9 witness: the tie-alpha theorem applied at `r_val = 0`, `g_val = 254`
with black and white backgrounds. -/
theorem alpha_zero_beyond_extreme_witness :
    (compositePixel 0 254 colBlack colWhite).2.2.2 = 0 ∧
    compositePixel 0 254 colBlack colWhite
      = (colBlack.1, colBlack.2.1, colBlack.2.2, 0) ∧
    compositePixel 1 255 colBlack colWhite
      = (colWhite.1, colWhite.2.1, colWhite.2.2, 0) :=
  alpha_zero_beyond_extreme 0 254 colBlack colWhite rfl (by norm_num)

/-! ## C10: equal background colors -/

/-- C10: If the two background colors are equal then `interpolate` returns
exactly that color for every interpolation fraction, and hence every pixel of
the composited image has RGB channels equal to it, whatever the input
intensities. -/
theorem interpolate_const_of_eq (x : ℚ) (bc : Color) (L1 L2 : GrayImage)
    (u v : ℕ) :
    interpolate x bc bc = bc ∧
    ((compositeLayers L1 L2 bc bc).pix u v).1 = bc.1 ∧
    ((compositeLayers L1 L2 bc bc).pix u v).2.1 = bc.2.1 ∧
    ((compositeLayers L1 L2 bc bc).pix u v).2.2.1 = bc.2.2 := by
  refine ⟨interpolate_same x bc, ?_, ?_, ?_⟩
  · show (interpolate (bval (L1.pix u v) (L2.pix u v)) bc bc).1 = bc.1
    rw [interpolate_same]
  · show (interpolate (bval (L1.pix u v) (L2.pix u v)) bc bc).2.1 = bc.2.1
    rw [interpolate_same]
  · show (interpolate (bval (L1.pix u v) (L2.pix u v)) bc bc).2.2 = bc.2.2
    rw [interpolate_same]

/-! ## C3: behaviour on encode/write failure -/

/-- C3 counterexample: on a save failure the error is reported, yet the run's
exit code is 0, not non-zero — `composite_images` catches the exception,
prints the message and returns, and `main` ends normally. -/
theorem save_failure_exit_zero :
    (composite_images (some unitGray) (some unitGray) "#000000" "#FFFFFF"
        false).saveErrorReported = true ∧
    (composite_images (some unitGray) (some unitGray) "#000000" "#FFFFFF"
        false).exitCode = 0 :=
  ⟨rfl, rfl⟩

/-- C3 amended: if the output cannot be written, the program reports the
encode error, but the process then exits with code 0 (the other failure
kinds call `sys.exit(1)`; the save path does not). -/
theorem save_failure_reported (i1 i2 : GrayImage) (c1 c2 : String)
    (bc1 bc2 : Color) (h1 : hex_to_rgb c1 = some bc1)
    (h2 : hex_to_rgb c2 = some bc2) :
    (composite_images (some i1) (some i2) c1 c2 false).saveErrorReported
      = true ∧
    (composite_images (some i1) (some i2) c1 c2 false).exitCode = 0 := by
  simp only [composite_images, h1, h2]
  exact ⟨rfl, rfl⟩

/-- C3 witness: the amended theorem at concrete images and colors. -/
theorem save_failure_reported_witness :
    (composite_images (some gimgA) (some gimgB) "#FFF" "#000000"
        false).saveErrorReported = true ∧
    (composite_images (some gimgA) (some gimgB) "#FFF" "#000000"
        false).exitCode = 0 :=
  save_failure_reported gimgA gimgB "#FFF" "#000000"
    (255, 255, 255) (0, 0, 0) rfl rfl

/-! ## C7: color parsing and when rejection happens -/

/-- C7 counterexample: with an invalid color string the run does exit with
code 1, but only after both input images were fully loaded and prepared
(`imagesLoaded = 2`) — the rejection does not happen before image processing
begins. -/
theorem invalid_color_after_processing :
    (composite_images (some unitGray) (some unitGray) "notacolor" "#FFFFFF"
        true).exitCode = 1 ∧
    (composite_images (some unitGray) (some unitGray) "notacolor" "#FFFFFF"
        true).imagesLoaded = 2 :=
  ⟨rfl, rfl⟩

/-- C7 amended: `#FFF` and `#FFFFFF` both parse to (255, 255, 255); an
invalid color string is rejected with a diagnostic and exit code 1, but the
rejection happens only after both input images have been loaded and
prepared, not before image processing begins. -/
theorem invalid_color_fatal (i1 i2 : GrayImage) (c other : String)
    (saveOk : Bool) (hc : hex_to_rgb c = none) :
    getrgb "#FFF" = some (255, 255, 255) ∧
    getrgb "#FFFFFF" = some (255, 255, 255) ∧
    getrgb "notacolor" = none ∧
    (composite_images (some i1) (some i2) c other saveOk).exitCode = 1 ∧
    (composite_images (some i1) (some i2) c other saveOk).imagesLoaded = 2 := by
  refine ⟨rfl, rfl, rfl, ?_, ?_⟩ <;> simp only [composite_images, hc]

/-- C7 witness: the amended theorem at a concrete invalid color string. -/
theorem invalid_color_fatal_witness :
    getrgb "#FFF" = some (255, 255, 255) ∧
    getrgb "#FFFFFF" = some (255, 255, 255) ∧
    getrgb "notacolor" = none ∧
    (composite_images (some unitGray) (some unitGray) "notacolor" "#FFFFFF"
        false).exitCode = 1 ∧
    (composite_images (some unitGray) (some unitGray) "notacolor" "#FFFFFF"
        false).imagesLoaded = 2 :=
  invalid_color_fatal unitGray unitGray "notacolor" "#FFFFFF" false rfl

/-! ## C4: the flatten step on alpha-less inputs -/

/-- C4 (code evaluated at the failing input): a mode-`L` input with no alpha
channel is not used as-is by the flatten step: PIL accepts the mode-`L` image
itself as the paste mask, so its pixel of value 0 is replaced by the white
background value 255.  A mode-`RGB` input, whose masked paste raises
`ValueError`, is pasted directly and keeps its pixel. -/
theorem flatten_changes_mode_L :
    (flattenOntoWhite srcL0).pix 0 0 = 255 ∧
    srcL0.pix 0 0 = 0 ∧
    (flattenOntoWhite srcRGB0).pix 0 0 = 0 :=
  ⟨rfl, rfl, rfl⟩
